import Mathlib

/-!
Verification development for a tenant-scoped retrieval service.

The development shallowly embeds the behaviour of the service's core
modules and proves the behavioural properties stated about them:

* the inventory-document normaliser and per-tenant index manager
  (lazy build, on-disk persistence, in-memory cache, forced refresh,
  nearest-neighbour search);
* the retrieval step that assembles a context string from retrieved
  documents;
* the response parsers that turn generated free text into a list of
  names or into structured suggestion records, including their JSON
  extraction heuristics;
* the request handlers for the list and structured endpoints.

Machine integers do not occur (quantities and prices are unbounded
Python integers, modelled as Int); fallible operations return Except
or Option.  JSON numeric literals are modelled as integers; a
fractional or exponent form is treated as undecodable by the embedded
decoder, and no statement below depends on such inputs.
-/

/-- A JSON value, as produced by the standard JSON decoder.  Objects
keep their fields in textual order (the decoder's dict keeps the last
binding for a duplicated key, which lookups below respect). -/
inductive Json where
  | null : Json
  | bool (b : Bool) : Json
  | num (n : Int) : Json
  | str (s : String) : Json
  | arr (elems : List Json) : Json
  | obj (fields : List (String × Json)) : Json

/-- JSON inter-token whitespace: exactly space, tab, newline, return. -/
def isJsonWs (c : Char) : Bool :=
  c = ' ' ∨ c = '\t' ∨ c = '\n' ∨ c = '\r'

/-- Whitespace as matched by the regex class backslash-s and stripped by
str.strip (ASCII part): space, tab, newline, return, vertical tab, form feed. -/
def isWsPy (c : Char) : Bool :=
  c = ' ' ∨ c = '\t' ∨ c = '\n' ∨ c = '\r' ∨ c = '\x0b' ∨ c = '\x0c'

/-- Numeric value of a hexadecimal digit. -/
def hexVal (c : Char) : Option Nat :=
  if c.isDigit then some (c.toNat - '0'.toNat)
  else if 'a' ≤ c ∧ c ≤ 'f' then some (c.toNat - 'a'.toNat + 10)
  else if 'A' ≤ c ∧ c ≤ 'F' then some (c.toNat - 'A'.toNat + 10)
  else none

/-- Parse the body of a JSON string literal (after the opening quote),
returning the decoded characters and the input after the closing quote.
Control characters below 0x20 are rejected, as in the strict decoder.
The fuel argument is an upper bound on the input length. -/
def parseStrChars : Nat → List Char → Option (List Char × List Char)
  | 0, _ => none
  | _ + 1, [] => none
  | fuel + 1, c :: rest =>
    if c = '"' then some ([], rest)
    else if c = '\\' then
      match rest with
      | [] => none
      | e :: rest2 =>
        let esc : Option (Char × List Char) :=
          if e = '"' then some ('"', rest2)
          else if e = '\\' then some ('\\', rest2)
          else if e = '/' then some ('/', rest2)
          else if e = 'n' then some ('\n', rest2)
          else if e = 't' then some ('\t', rest2)
          else if e = 'r' then some ('\r', rest2)
          else if e = 'b' then some ('\x08', rest2)
          else if e = 'f' then some ('\x0c', rest2)
          else if e = 'u' then
            match rest2 with
            | h1 :: h2 :: h3 :: h4 :: rest3 =>
              match hexVal h1, hexVal h2, hexVal h3, hexVal h4 with
              | some v1, some v2, some v3, some v4 =>
                some (Char.ofNat (((v1 * 16 + v2) * 16 + v3) * 16 + v4), rest3)
              | _, _, _, _ => none
            | _ => none
          else none
        match esc with
        | some (ch, rst) =>
          match parseStrChars fuel rst with
          | some (s, r) => some (ch :: s, r)
          | none => none
        | none => none
    else if c.toNat < 0x20 then none
    else
      match parseStrChars fuel rest with
      | some (s, r) => some (c :: s, r)
      | none => none

/-- Parse a JSON integer literal (optional minus, no leading zeros).
A fractional or exponent continuation is treated as undecodable. -/
def parseNum (cs : List Char) : Option (Json × List Char) :=
  let neg : Bool := match cs with | '-' :: _ => true | _ => false
  let cs1 : List Char := match cs with | '-' :: r => r | _ => cs
  match cs1 with
  | [] => none
  | d :: _ =>
    if ¬ d.isDigit then none
    else
      let digits := if d = '0' then ['0'] else cs1.takeWhile Char.isDigit
      let rest := cs1.drop digits.length
      match rest with
      | '.' :: _ => none
      | 'e' :: _ => none
      | 'E' :: _ => none
      | _ =>
        let n : Int := digits.foldl (fun acc c => acc * 10 + (Int.ofNat (c.toNat - '0'.toNat))) 0
        some (Json.num (if neg then -n else n), rest)

/-- Intermediate results of the recursive-descent JSON decoder. -/
inductive PRes where
  | val (v : Json) : PRes
  | items (l : List Json) : PRes
  | fields (l : List (String × Json)) : PRes

/-- Recursive-descent JSON decoder.  The second argument selects the
production: 0 parses one value, 1 parses the items of an array after
its opening bracket, 2 parses the fields of an object after its
opening brace.  Fuel decreases on every recursive call; two units of
fuel per input character suffice. -/
def parseF : Nat → Nat → List Char → Option (PRes × List Char)
  | 0, _, _ => none
  | fuel + 1, 0, cs =>
    let cs1 := cs.dropWhile isJsonWs
    match cs1 with
    | [] => none
    | c :: rest =>
      if c = '"' then
        match parseStrChars rest.length rest with
        | some (sChars, r) => some (.val (Json.str (String.mk sChars)), r)
        | none => none
      else if c = '[' then
        let rest1 := rest.dropWhile isJsonWs
        match rest1 with
        | ']' :: r2 => some (.val (Json.arr []), r2)
        | _ =>
          match parseF fuel 1 rest1 with
          | some (.items l, r2) => some (.val (Json.arr l), r2)
          | _ => none
      else if c = '{' then
        let rest1 := rest.dropWhile isJsonWs
        match rest1 with
        | '}' :: r2 => some (.val (Json.obj []), r2)
        | _ =>
          match parseF fuel 2 rest1 with
          | some (.fields l, r2) => some (.val (Json.obj l), r2)
          | _ => none
      else if c = 't' then
        if rest.take 3 = ['r', 'u', 'e'] then some (.val (Json.bool true), rest.drop 3) else none
      else if c = 'f' then
        if rest.take 4 = ['a', 'l', 's', 'e'] then some (.val (Json.bool false), rest.drop 4) else none
      else if c = 'n' then
        if rest.take 3 = ['u', 'l', 'l'] then some (.val Json.null, rest.drop 3) else none
      else
        match parseNum (c :: rest) with
        | some (v, r) => some (.val v, r)
        | none => none
  | fuel + 1, 1, cs =>
    match parseF fuel 0 cs with
    | some (.val v, r) =>
      let r1 := r.dropWhile isJsonWs
      match r1 with
      | ']' :: r2 => some (.items [v], r2)
      | ',' :: r2 =>
        match parseF fuel 1 r2 with
        | some (.items l, r3) => some (.items (v :: l), r3)
        | _ => none
      | _ => none
    | _ => none
  | fuel + 1, _ + 2, cs =>
    let cs1 := cs.dropWhile isJsonWs
    match cs1 with
    | '"' :: rest =>
      match parseStrChars rest.length rest with
      | some (kChars, r) =>
        let r1 := r.dropWhile isJsonWs
        match r1 with
        | ':' :: r2 =>
          match parseF fuel 0 r2 with
          | some (.val v, r3) =>
            let r4 := r3.dropWhile isJsonWs
            match r4 with
            | '}' :: r5 => some (.fields [(String.mk kChars, v)], r5)
            | ',' :: r5 =>
              match parseF fuel 2 r5 with
              | some (.fields l, r6) => some (.fields ((String.mk kChars, v) :: l), r6)
              | _ => none
            | _ => none
          | _ => none
        | _ => none
      | none => none
    | _ => none

/-- The JSON decoder applied to a whole string: one value surrounded
only by whitespace, as json.loads requires. -/
def json_loads (s : String) : Option Json :=
  let cs := s.data
  match parseF (2 * cs.length + 4) 0 cs with
  | some (.val v, rest) => if rest.dropWhile isJsonWs = [] then some v else none
  | _ => none

/-- Index of the last occurrence of a character. -/
def lastIdxOf (cs : List Char) (c : Char) : Option Nat :=
  match cs.reverse.findIdx? (fun x => x = c) with
  | some r => some (cs.length - 1 - r)
  | none => none

/-- The span matched by the dotall-greedy pattern bracket, any
characters, close-bracket: from the first opening bracket to the last
closing bracket, provided the former precedes the latter. -/
def find_json_array (cs : List Char) : Option (List Char) :=
  match cs.findIdx? (fun x => x = '['), lastIdxOf cs ']' with
  | some i, some j => if i < j then some ((cs.take (j + 1)).drop i) else none
  | _, _ => none

/-- Length of the maximal whitespace run at the head of the input. -/
def wsRunLen (cs : List Char) : Nat := (cs.takeWhile isWsPy).length

/-- For the array-of-objects pattern: position q closes the match when
it holds a closing brace whose next non-whitespace character is a
closing bracket; the returned index is that bracket's position. -/
def closerEnd (cs : List Char) (q : Nat) : Option Nat :=
  if cs.getD q ' ' = '}' then
    let after := cs.drop (q + 1)
    let n := wsRunLen after
    if after.getD n ' ' = ']' then some (q + 1 + n) else none
  else none

/-- For the array-of-objects pattern: position i starts the match when
it holds an opening bracket whose next non-whitespace character is an
opening brace; the returned index is that brace's position. -/
def startsObjArray (cs : List Char) (i : Nat) : Option Nat :=
  if cs.getD i ' ' = '[' then
    let after := cs.drop (i + 1)
    let n := wsRunLen after
    if after.getD n ' ' = '{' then some (i + 1 + n) else none
  else none

/-- The span matched by the dotall pattern bracket, whitespace, brace,
any characters (greedy), brace, whitespace, close-bracket: the
leftmost viable start, extended to the last viable closer. -/
def find_obj_array (cs : List Char) : Option (List Char) :=
  let closers := (List.range cs.length).filter (fun q => (closerEnd cs q).isSome)
  match closers.getLast? with
  | none => none
  | some qmax =>
    match (List.range cs.length).find? (fun i =>
        match startsObjArray cs i with
        | some p => decide (p < qmax)
        | none => false) with
    | some i =>
      match closerEnd cs qmax with
      | some e => some ((cs.take (e + 1)).drop i)
      | none => none
    | none => none

/-- For the suggestions-object pattern: position i starts the match when
it holds an opening brace followed (through whitespace) by the quoted
key suggestions, a colon and an opening bracket; the returned index is
that bracket's position. -/
def startsSuggObj (cs : List Char) (i : Nat) : Option Nat :=
  if cs.getD i ' ' = '{' then
    let a1 := cs.drop (i + 1)
    let n1 := wsRunLen a1
    let lit := "\"suggestions\"".data
    if (a1.drop n1).take lit.length = lit then
      let a2 := a1.drop (n1 + lit.length)
      let n2 := wsRunLen a2
      if a2.getD n2 ' ' = ':' then
        let a3 := a2.drop (n2 + 1)
        let n3 := wsRunLen a3
        if a3.getD n3 ' ' = '[' then some (i + 1 + n1 + lit.length + n2 + 1 + n3)
        else none
      else none
    else none
  else none

/-- For the suggestions-object pattern: position r closes the match
when it holds a closing bracket whose next non-whitespace character is
a closing brace; the returned index is that brace's position. -/
def closerEnd2 (cs : List Char) (r : Nat) : Option Nat :=
  if cs.getD r ' ' = ']' then
    let after := cs.drop (r + 1)
    let n := wsRunLen after
    if after.getD n ' ' = '}' then some (r + 1 + n) else none
  else none

/-- The span matched by the dotall pattern brace, quoted suggestions
key, colon, bracket, any characters (greedy), close-bracket,
whitespace, close-brace. -/
def find_sugg_obj (cs : List Char) : Option (List Char) :=
  let closers := (List.range cs.length).filter (fun r => (closerEnd2 cs r).isSome)
  match closers.getLast? with
  | none => none
  | some rmax =>
    match (List.range cs.length).find? (fun i =>
        match startsSuggObj cs i with
        | some b => decide (b < rmax)
        | none => false) with
    | some i =>
      match closerEnd2 cs rmax with
      | some e => some ((cs.take (e + 1)).drop i)
      | none => none
    | none => none

/-- Split on newline characters, keeping empty pieces, as the split
method with a newline separator does. -/
def split_nl : List Char → List (List Char)
  | [] => [[]]
  | c :: rest =>
    let r := split_nl rest
    if c = '\n' then [] :: r
    else
      match r with
      | h :: t => (c :: h) :: t
      | [] => [[c]]

/-- Remove one leading numbering or bullet marker: optional
whitespace then either digits followed by a dot, a dash, or a star,
each with trailing whitespace consumed.  When no marker is present the
line is returned unchanged. -/
def strip_listing (l : List Char) : List Char :=
  let ws := l.takeWhile isWsPy
  let rest := l.drop ws.length
  let ds := rest.takeWhile Char.isDigit
  if ds ≠ [] ∧ (rest.drop ds.length).head? = some '.' then
    (rest.drop (ds.length + 1)).dropWhile isWsPy
  else
    match rest.head? with
    | some '-' => (rest.drop 1).dropWhile isWsPy
    | some '*' => (rest.drop 1).dropWhile isWsPy
    | _ => l

/-- Remove leading and trailing whitespace, as str.strip does. -/
def pyStrip (cs : List Char) : List Char :=
  ((cs.dropWhile isWsPy).reverse.dropWhile isWsPy).reverse

/-- One line of the fallback parse: marker removal then strip. -/
def clean_line (l : List Char) : String :=
  String.mk (pyStrip (strip_listing l))

/-- parse_recipe_list: try to decode a bracketed span as a JSON
array; if that yields a list, return it, otherwise fall back to
line-based parsing that removes numbering and bullets and drops blank
lines.  Fallback lines are strings, embedded as JSON strings. -/
def parse_recipe_list (response : String) : List Json :=
  let jsonTry : Option (List Json) :=
    match find_json_array response.data with
    | some sub =>
      match json_loads (String.mk sub) with
      | some (Json.arr l) => some l
      | _ => none
    | none => none
  match jsonTry with
  | some l => l
  | none =>
    (((split_nl response.data).map clean_line).filter (fun l => l ≠ "")).map Json.str

/-- The record returned when a located candidate fails to decode. -/
def parse_failure_marker : Json :=
  Json.arr [Json.obj [("error", Json.str "Failed to parse suggestions from LLM response")]]

/-- The record returned when no candidate pattern is located. -/
def extract_failure_marker : Json :=
  Json.arr [Json.obj [("error", Json.str "Failed to extract structured recipe suggestions from response")]]

/-- Second attempt of parse_structured_suggestions: locate a
suggestions object, decode it, and extract the value of the
suggestions key (the decoder keeps the last binding of a duplicated
key, hence the reversed lookup). -/
def sugg_second (cs : List Char) : Json :=
  match find_sugg_obj cs with
  | some sub =>
    match json_loads (String.mk sub) with
    | none => parse_failure_marker
    | some (Json.obj fields) =>
      match fields.reverse.lookup "suggestions" with
      | some v => v
      | none => extract_failure_marker
    | some _ => extract_failure_marker
  | none => sugg_second_missing
where
  sugg_second_missing := extract_failure_marker

/-- parse_structured_suggestions: try to decode an array-of-objects
span; a decode failure there returns the parse-failure record at once
(the exception handler covers both attempts), otherwise the
suggestions-object pattern is tried; if nothing is located the
extract-failure record is returned. -/
def parse_structured_suggestions (response : String) : Json :=
  match find_obj_array response.data with
  | some sub =>
    match json_loads (String.mk sub) with
    | none => parse_failure_marker
    | some (Json.arr l) => Json.arr l
    | some _ => sugg_second response.data
  | none => sugg_second response.data

/-- A raw inventory or billing record, as returned by the data source.
Each field may be absent. -/
structure RawItem where
  item_name : Option String
  quantity : Option Int
  price : Option Int
  month : Option String
deriving DecidableEq

/-- A normalized document: the display text plus the structured
fields it was built from. -/
structure Doc where
  text : String
  item_name : String
  quantity : Int
  price : Int
  month : String
deriving DecidableEq, Inhabited

/-- Normalization of one raw record: absent fields fall back to the
fixed defaults, and the display text is rendered from the (possibly
defaulted) field values. -/
def mk_doc (item : RawItem) : Doc :=
  let item_name := item.item_name.getD "Unknown Item"
  let quantity := item.quantity.getD 0
  let price := item.price.getD 0
  let month := item.month.getD "Unknown Month"
  { text := s!"Item: {item_name}, Quantity: {quantity}, Price: {price}, Month: {month}",
    item_name := item_name, quantity := quantity, price := price, month := month }

/-- format_inventory_docs: the loop that appends one normalized
document per raw record. -/
def format_inventory_docs (inventory_items : List RawItem) : List Doc :=
  inventory_items.foldl (fun docs item => docs ++ [mk_doc item]) []

/-- An embedding vector.  Exact values are irrelevant to the stated
properties; integer components keep distances exact. -/
abbrev Vec := List Int

/-- Squared Euclidean distance between two vectors. -/
def sqdist (u v : Vec) : Int :=
  (List.zipWith (fun a b => (a - b) * (a - b)) u v).sum

/-- Ranking of stored-vector indices for a query: strictly closer
first, ties resolved toward the lower (earlier inserted) index. -/
def nn_rank (q : Vec) (stored : List Vec) (i j : Nat) : Prop :=
  sqdist q (stored.getD i []) < sqdist q (stored.getD j []) ∨
    (sqdist q (stored.getD i []) = sqdist q (stored.getD j []) ∧ i ≤ j)

instance (q : Vec) (stored : List Vec) : DecidableRel (nn_rank q stored) := by
  intro i j
  unfold nn_rank
  infer_instance

instance (q : Vec) (stored : List Vec) : IsTotal Nat (nn_rank q stored) := by
  constructor
  intro i j
  unfold nn_rank
  rcases lt_trichotomy (sqdist q (stored.getD i [])) (sqdist q (stored.getD j [])) with h | h | h
  · exact Or.inl (Or.inl h)
  · rcases Nat.le_total i j with hij | hij
    · exact Or.inl (Or.inr ⟨h, hij⟩)
    · exact Or.inr (Or.inr ⟨h.symm, hij⟩)
  · exact Or.inr (Or.inl h)

instance (q : Vec) (stored : List Vec) : IsTrans Nat (nn_rank q stored) := by
  constructor
  intro a b c hab hbc
  unfold nn_rank at hab hbc ⊢
  rcases hab with hab | ⟨hab, hab2⟩ <;> rcases hbc with hbc | ⟨hbc, hbc2⟩
  · exact Or.inl (hab.trans hbc)
  · exact Or.inl (hbc ▸ hab)
  · exact Or.inl (hab ▸ hbc)
  · exact Or.inr ⟨hab.trans hbc, hab2.trans hbc2⟩

/-- Modelled from the spec: the exact nearest-neighbour search of the
vector-index collaborator, whose implementation (a flat L2 index) is
not part of this repository's sources.  Per the spec it returns up to
min(k, n) indices ordered by non-decreasing Euclidean distance to the
query, ties broken by original insertion order (lower index first),
the empty sequence for an empty index or for k at most 0. -/
def vector_search (stored : List Vec) (q : Vec) (k : Int) : List Nat :=
  if k ≤ 0 then []
  else ((List.range stored.length).insertionSort (nn_rank q stored)).take
    (min k.toNat stored.length)

/-- The data source: per-tenant raw fetches for the two collections,
each of which may fail. -/
structure MongoDBSrc where
  inventory_src : String → Except String (List RawItem)
  bills_src : String → Except String (List RawItem)

/-- get_user_inventory: the fetch wrapper catches any error, logs it
and returns the empty list. -/
def get_user_inventory (db : MongoDBSrc) (user_id : String) : List RawItem :=
  match db.inventory_src user_id with
  | .ok items => items
  | .error _ => []

/-- get_user_bills: same catch-all degradation to the empty list. -/
def get_user_bills (db : MongoDBSrc) (user_id : String) : List RawItem :=
  match db.bills_src user_id with
  | .ok items => items
  | .error _ => []

/-- The embedding provider: one batched call mapping texts to
vectors, which may fail. -/
abbrev Encoder := List String → Except String (List Vec)

/-- Mutable state of the index manager: the in-memory cache (the
user_indices and user_docs dictionaries, always written together) and
the on-disk artifacts (the index and docs files, always written
together).  Association lists with newest binding first model the
keyed stores. -/
structure IMState where
  memory : List (String × (List Vec × List Doc))
  disk : List (String × (List Vec × List Doc))
deriving DecidableEq

/-- The dictionary returned by get_or_create_index: a possibly absent
index plus the aligned document list. -/
structure TenantData where
  index : Option (List Vec)
  docs : List Doc
deriving DecidableEq

/-- get_or_create_index: return the cached copy unless a refresh is
forced; otherwise load the disk copy unless a refresh is forced;
otherwise rebuild from the data source.  An empty record set returns
an absent index and empty documents without storing anything.  An
embedding failure propagates as an error. -/
def get_or_create_index (encode : Encoder) (db : MongoDBSrc) (user_id : String)
    (force_refresh : Bool) (s : IMState) : Except String (TenantData × IMState) :=
  match force_refresh, s.memory.lookup user_id with
  | false, some (idx, docs) => .ok ({ index := some idx, docs := docs }, s)
  | _, _ =>
    match force_refresh, s.disk.lookup user_id with
    | false, some (idx, docs) =>
      .ok ({ index := some idx, docs := docs },
        { s with memory := (user_id, (idx, docs)) :: s.memory })
    | _, _ =>
      let user_inventory := get_user_inventory db user_id
      let user_bills := get_user_bills db user_id
      let all_items := user_inventory ++ user_bills
      let docs := format_inventory_docs all_items
      if docs = [] then
        .ok ({ index := none, docs := [] }, s)
      else
        match encode (docs.map (fun d => d.text)) with
        | .error e => .error e
        | .ok embeddings =>
          .ok ({ index := some embeddings, docs := docs },
            { s with
              disk := (user_id, (embeddings, docs)) :: s.disk,
              memory := (user_id, (embeddings, docs)) :: s.memory })

/-- The dictionary returned by refresh_index. -/
structure RefreshResult where
  status : String
  message : String
  document_count : Nat
deriving DecidableEq

/-- refresh_index: force a rebuild; any error is caught and reported
as a failure result with a zero count, leaving the state as it was. -/
def refresh_index (encode : Encoder) (db : MongoDBSrc) (user_id : String)
    (s : IMState) : RefreshResult × IMState :=
  match get_or_create_index encode db user_id true s with
  | .ok (td, s2) =>
    ({ status := "success", message := "Index refreshed successfully",
       document_count := td.docs.length }, s2)
  | .error e =>
    ({ status := "error", message := "Failed to refresh index: " ++ e,
       document_count := 0 }, s)

/-- search: obtain the tenant's index, return the empty list when the
index is absent or the document list empty, otherwise embed the query
and look up the nearest min(k, n) documents. -/
def im_search (encode : Encoder) (db : MongoDBSrc) (user_id query : String)
    (k : Int) (s : IMState) : Except String (List Doc × IMState) :=
  match get_or_create_index encode db user_id false s with
  | .error e => .error e
  | .ok (td, s2) =>
    if td.index.isNone ∨ td.docs = [] then .ok ([], s2)
    else
      match td.index with
      | none => .ok ([], s2)
      | some index =>
        match encode [query] with
        | .error e => .error e
        | .ok qembs =>
          let qv := qembs.headD []
          let idxs := vector_search index qv (min k (Int.ofNat td.docs.length))
          .ok (idxs.map (fun i => td.docs.getD i default), s2)

/-- Join a list of strings with newline separators, as the join
method of a newline string does. -/
def join_nl : List String → String
  | [] => ""
  | l :: rest => rest.foldl (fun acc x => acc ++ "\n" ++ x) l

/-- The context string assembled by the retrieval node: one line per
retrieved document, a dash-space marker followed by the document
text, joined by newlines; the fixed placeholder when the join is
empty. -/
def retrieve_context (docs : List Doc) : String :=
  let context := join_nl (docs.map (fun doc => "- " ++ doc.text))
  if context = "" then "No inventory data found." else context

/-- A request body: each required field may be absent. -/
structure ReqBody where
  query : Option String
  userid : Option String

/-- The client-error response for an absent or field-missing body. -/
def missing_params_resp : Json × Nat :=
  (Json.obj [("error", Json.str "Missing required parameters")], 400)

/-- The list endpoint.  The pipeline is abstracted as a fallible
function from query and user id to the parsed recipe list; the
handler catches its failure and embeds the message in a success-shaped
payload.  A missing body or field short-circuits to the client error
before the pipeline runs. -/
def item_rag_endpoint (run : String → String → Except String (List Json))
    (body : Option ReqBody) : Json × Nat :=
  match body with
  | none => missing_params_resp
  | some r =>
    match r.query, r.userid with
    | some q, some u =>
      match run q u with
      | .ok recipe_list => (Json.obj [("answer", Json.arr recipe_list)], 200)
      | .error e =>
        (Json.obj [("answer", Json.arr [Json.str ("Error generating recipes: " ++ e)])], 200)
    | _, _ => missing_params_resp

/-- The structured-suggestions endpoint, with the same catch-all
discipline: pipeline failures come back as a one-record suggestions
payload with the message under an error key. -/
def structured_recipe_endpoint (run : String → String → Except String Json)
    (body : Option ReqBody) : Json × Nat :=
  match body with
  | none => missing_params_resp
  | some r =>
    match r.query, r.userid with
    | some q, some u =>
      match run q u with
      | .ok suggestions => (Json.obj [("suggestions", suggestions)], 200)
      | .error e =>
        (Json.obj [("suggestions", Json.arr [Json.obj [("error", Json.str e)]])], 200)
    | _, _ => missing_params_resp

/-- C1: for a stored vector set of size n and any integer k, the
vector search returns exactly min(k, n) indices (with negative k
clamped to zero), all valid, ordered by non-decreasing squared
Euclidean distance to the query with ties broken toward the lower
insertion index; an empty index or a non-positive k yields the empty
sequence. -/
theorem vector_search_spec (stored : List Vec) (q : Vec) (k : Int) :
    (vector_search stored q k).length = min k.toNat stored.length ∧
    (∀ i ∈ vector_search stored q k, i < stored.length) ∧
    (vector_search stored q k).Pairwise (fun i j =>
      sqdist q (stored.getD i []) < sqdist q (stored.getD j []) ∨
        (sqdist q (stored.getD i []) = sqdist q (stored.getD j []) ∧ i < j)) ∧
    (stored = [] ∨ k ≤ 0 → vector_search stored q k = []) := by
  by_cases hk : k ≤ 0
  · have h0 : vector_search stored q k = [] := by
      simp [vector_search, hk]
    have hkn : k.toNat = 0 := Int.toNat_of_nonpos hk
    refine ⟨?_, ?_, ?_, ?_⟩
    · simp [h0, hkn]
    · simp [h0]
    · simp [h0]
    · intro _; exact h0
  · have hres : vector_search stored q k =
        ((List.range stored.length).insertionSort (nn_rank q stored)).take
          (min k.toNat stored.length) := by
      simp [vector_search, hk]
    have hlen : (vector_search stored q k).length = min k.toNat stored.length := by
      rw [hres, List.length_take, List.length_insertionSort, List.length_range]
      omega
    have hmem : ∀ i ∈ vector_search stored q k, i < stored.length := by
      intro i hi
      rw [hres] at hi
      have h2 := List.mem_of_mem_take hi
      rw [List.mem_insertionSort, List.mem_range] at h2
      exact h2
    refine ⟨hlen, hmem, ?_, ?_⟩
    · have hsorted : ((List.range stored.length).insertionSort
          (nn_rank q stored)).Pairwise (nn_rank q stored) :=
        List.sorted_insertionSort (nn_rank q stored) (List.range stored.length)
      have hnodup : ((List.range stored.length).insertionSort
          (nn_rank q stored)).Nodup :=
        ((List.perm_insertionSort (nn_rank q stored)
          (List.range stored.length)).nodup_iff).mpr (List.nodup_range _)
      have hsub := List.take_sublist (min k.toNat stored.length)
        ((List.range stored.length).insertionSort (nn_rank q stored))
      have hp : (vector_search stored q k).Pairwise (nn_rank q stored) := by
        rw [hres]; exact hsorted.sublist hsub
      have hnd : (vector_search stored q k).Nodup := by
        rw [hres]; exact hnodup.sublist hsub
      have hand := hp.and hnd
      refine hand.imp ?_
      intro a b hab
      rcases hab with ⟨hr, hne⟩
      rcases hr with hr | ⟨heq, hle⟩
      · exact Or.inl hr
      · exact Or.inr ⟨heq, lt_of_le_of_ne hle hne⟩
    · intro h
      rcases h with h | h
      · subst h
        have : (vector_search ([] : List Vec) q k).length = 0 := by
          rw [hlen]; simp
        exact List.length_eq_zero.mp this
      · exact absurd h hk

/-- Witness for C1 at a concrete input: searching an empty vector set
with a negative k returns the empty sequence. -/
theorem vector_search_spec_witness : vector_search ([] : List Vec) [] (-1) = [] :=
  (vector_search_spec [] [] (-1)).2.2.2 (Or.inl rfl)

/-- The appending loop of format_inventory_docs is a map. -/
theorem format_foldl_eq_map (items : List RawItem) (acc : List Doc) :
    items.foldl (fun docs item => docs ++ [mk_doc item]) acc = acc ++ items.map mk_doc := by
  induction items generalizing acc with
  | nil => simp
  | cons it rest ih => simp [ih]

/-- format_inventory_docs normalizes record by record, in order. -/
theorem format_eq_map (items : List RawItem) :
    format_inventory_docs items = items.map mk_doc := by
  rw [format_inventory_docs, format_foldl_eq_map, List.nil_append]

/-- Folding newline-joins onto an accumulator never shortens it. -/
theorem foldl_join_length (t : List String) (a : String) :
    a.length ≤ (t.foldl (fun acc x => acc ++ "\n" ++ x) a).length := by
  induction t generalizing a with
  | nil => simp
  | cons x rest ih =>
    simp only [List.foldl_cons]
    refine le_trans ?_ (ih (a ++ "\n" ++ x))
    simp only [String.length_append]
    omega

/-- C2 counterexample: for the single default-valued document, the
context string is not the newline-join of the document texts — each
line carries a leading dash-space marker. -/
theorem retrieve_context_counterexample :
    retrieve_context (format_inventory_docs
        [{ item_name := none, quantity := none, price := none, month := none }]) ≠
      join_nl ((format_inventory_docs
        [{ item_name := none, quantity := none, price := none, month := none }]).map
          (fun d => d.text)) := by
  decide

/-- C2 (amended): the context handed to generation is the
newline-join, in retrieval-rank order, of one line per document whose
text is a dash-space marker followed by the Item/Quantity/Price/Month
rendering of the document's fields; with no documents it is the fixed
placeholder. -/
theorem retrieve_context_amended (items : List RawItem) :
    retrieve_context (format_inventory_docs items) =
      if items = [] then "No inventory data found."
      else join_nl (items.map (fun item =>
        "- Item: " ++ item.item_name.getD "Unknown Item" ++ ", Quantity: " ++
        toString (item.quantity.getD 0) ++ ", Price: " ++ toString (item.price.getD 0) ++
        ", Month: " ++ item.month.getD "Unknown Month")) := by
  cases items with
  | nil => rfl
  | cons it rest =>
    rw [if_neg (by simp : ¬(it :: rest = []))]
    rw [format_eq_map]
    have hmaps : (List.map mk_doc (it :: rest)).map (fun doc => "- " ++ doc.text) =
        (it :: rest).map (fun item =>
          "- Item: " ++ item.item_name.getD "Unknown Item" ++ ", Quantity: " ++
          toString (item.quantity.getD 0) ++ ", Price: " ++ toString (item.price.getD 0) ++
          ", Month: " ++ item.month.getD "Unknown Month") := by
      rw [List.map_map]
      apply List.map_congr_left
      intro item _
      show "- " ++ (mk_doc item).text = _
      simp only [mk_doc, toString, String.append_assoc, String.append_empty]
      rw [← String.append_assoc]
      rfl
    have hne : join_nl ((List.map mk_doc (it :: rest)).map (fun doc => "- " ++ doc.text)) ≠ "" := by
      simp only [List.map_cons]
      intro heq
      have hlen := foldl_join_length ((List.map mk_doc rest).map (fun doc => "- " ++ doc.text))
        ("- " ++ (mk_doc it).text)
      rw [show join_nl (("- " ++ (mk_doc it).text) ::
          (List.map mk_doc rest).map (fun doc => "- " ++ doc.text)) =
          ((List.map mk_doc rest).map (fun doc => "- " ++ doc.text)).foldl
            (fun acc x => acc ++ "\n" ++ x) ("- " ++ (mk_doc it).text) from rfl] at heq
      rw [heq] at hlen
      simp only [String.length_append] at hlen
      have h2 : ("- " : String).length = 2 := rfl
      have h0 : ("" : String).length = 0 := rfl
      omega
    rw [retrieve_context]
    simp only [if_neg hne]
    rw [hmaps]

/-- C10: normalization substitutes the fixed defaults for missing
fields (Unknown Item, 0, 0, Unknown Month), builds the display text
from exactly the four possibly-defaulted values, and is total: one
document per raw record, in order. -/
theorem format_inventory_docs_spec (items : List RawItem) :
    format_inventory_docs items = items.map (fun item =>
      { text := "Item: " ++ item.item_name.getD "Unknown Item" ++ ", Quantity: " ++
          toString (item.quantity.getD 0) ++ ", Price: " ++ toString (item.price.getD 0) ++
          ", Month: " ++ item.month.getD "Unknown Month",
        item_name := item.item_name.getD "Unknown Item",
        quantity := item.quantity.getD 0,
        price := item.price.getD 0,
        month := item.month.getD "Unknown Month" }) ∧
    format_inventory_docs [{ item_name := none, quantity := none, price := none, month := none }] =
      [{ text := "Item: Unknown Item, Quantity: 0, Price: 0, Month: Unknown Month",
         item_name := "Unknown Item", quantity := 0, price := 0, month := "Unknown Month" }] := by
  constructor
  · rw [format_eq_map]
    apply List.map_congr_left
    intro item _
    simp only [mk_doc, toString, String.append_assoc, String.append_empty]
  · decide

/-- An encoder that embeds every text as a fixed vector. -/
def enc_ok : Encoder := fun ts => .ok (ts.map (fun _ => [0]))

/-- An encoder whose batched call always fails. -/
def enc_fail : Encoder := fun _ => .error "boom"

/-- A data source with no records for any tenant. -/
def db_empty : MongoDBSrc :=
  { inventory_src := fun _ => .ok [], bills_src := fun _ => .ok [] }

/-- A data source whose fetches always fail. -/
def db_down : MongoDBSrc :=
  { inventory_src := fun _ => .error "db down", bills_src := fun _ => .error "db down" }

/-- A data source with one inventory record for every tenant. -/
def db_one : MongoDBSrc :=
  { inventory_src := fun _ =>
      .ok [{ item_name := some "rice", quantity := some 5, price := some 100, month := some "Jan" }],
    bills_src := fun _ => .ok [] }

/-- The empty manager state: nothing cached, nothing on disk. -/
def s_empty : IMState := { memory := [], disk := [] }

/-- The document for the one record of db_one. -/
def doc_rice : Doc :=
  mk_doc { item_name := some "rice", quantity := some 5, price := some 100, month := some "Jan" }

/-- A state holding a stale one-document index for tenant u1 in both
the cache and the durable store. -/
def s_stale : IMState :=
  { memory := [("u1", ([[1]], [doc_rice]))], disk := [("u1", ([[1]], [doc_rice]))] }

/-- C7: for a tenant with zero source records and no cached or durable
copy, the build returns an absent index with an empty document list
without failing, search returns the empty result for any query and
any k, and refresh reports success with a zero document count. -/
theorem zero_records_spec (encode : Encoder) (db : MongoDBSrc) (user_id query : String)
    (k : Int) (s : IMState)
    (hmem : s.memory.lookup user_id = none) (hdisk : s.disk.lookup user_id = none)
    (hinv : get_user_inventory db user_id = []) (hbills : get_user_bills db user_id = []) :
    get_or_create_index encode db user_id false s = .ok ({ index := none, docs := [] }, s) ∧
    im_search encode db user_id query k s = .ok ([], s) ∧
    refresh_index encode db user_id s =
      ({ status := "success", message := "Index refreshed successfully",
         document_count := 0 }, s) := by
  have hget : get_or_create_index encode db user_id false s =
      .ok ({ index := none, docs := [] }, s) := by
    simp [get_or_create_index, hmem, hdisk, hinv, hbills, format_inventory_docs]
  have hforce : get_or_create_index encode db user_id true s =
      .ok ({ index := none, docs := [] }, s) := by
    simp [get_or_create_index, hinv, hbills, format_inventory_docs]
  refine ⟨hget, ?_, ?_⟩
  · simp [im_search, hget]
  · simp [refresh_index, hforce]

/-- Witness for C7: the empty data source, an untouched state. -/
theorem zero_records_spec_witness :
    get_or_create_index enc_ok db_empty "u1" false s_empty =
      .ok ({ index := none, docs := [] }, s_empty) ∧
    im_search enc_ok db_empty "u1" "q" 5 s_empty = .ok ([], s_empty) ∧
    refresh_index enc_ok db_empty "u1" s_empty =
      ({ status := "success", message := "Index refreshed successfully",
         document_count := 0 }, s_empty) :=
  zero_records_spec enc_ok db_empty "u1" "q" 5 s_empty rfl rfl rfl rfl

/-- C3 counterexample: when the data source itself fails, the fetch
wrapper degrades to an empty record list, so refresh reports success
with a zero count — not the error status the claim requires. -/
theorem refresh_datasource_failure_counterexample :
    (refresh_index enc_ok db_down "u1" s_empty).1.status = "success" ∧
    ¬ (refresh_index enc_ok db_down "u1" s_empty).1.status = "error" := by
  exact ⟨rfl, by decide⟩

/-- C3 (amended): an embedding-provider failure during refresh is
caught and reported as an error result with a zero count and the
message built from the underlying error; the state is left unchanged
and nothing propagates to the caller.  A data-source failure never
surfaces: the fetch wrapper swallows it and returns an empty record
list, so refresh then reports success with a zero count. -/
theorem refresh_embedding_failure (encode : Encoder) (db : MongoDBSrc) (user_id : String)
    (s : IMState) (e : String)
    (hdocs : format_inventory_docs
      (get_user_inventory db user_id ++ get_user_bills db user_id) ≠ [])
    (henc : encode ((format_inventory_docs
        (get_user_inventory db user_id ++ get_user_bills db user_id)).map
          (fun d => d.text)) = .error e) :
    refresh_index encode db user_id s =
      ({ status := "error", message := "Failed to refresh index: " ++ e,
         document_count := 0 }, s) := by
  simp [refresh_index, get_or_create_index, hdocs, henc]

/-- Witness for C3 (amended): a failing encoder over one record. -/
theorem refresh_embedding_failure_witness :
    refresh_index enc_fail db_one "u1" s_empty =
      ({ status := "error", message := "Failed to refresh index: " ++ "boom",
         document_count := 0 }, s_empty) :=
  refresh_embedding_failure enc_fail db_one "u1" s_empty "boom" (by decide) rfl

/-- C4 counterexample: with a stale one-document copy in both cache
and durable store and a now-empty record set, refresh reports success
with count 0 yet stores nothing: the state is unchanged and the
subsequent read still observes the old one-document index rather than
an empty one. -/
theorem refresh_empty_counterexample :
    (refresh_index enc_ok db_empty "u1" s_stale).1 =
      { status := "success", message := "Index refreshed successfully",
        document_count := 0 } ∧
    (refresh_index enc_ok db_empty "u1" s_stale).2 = s_stale ∧
    get_or_create_index enc_ok db_empty "u1" false
        (refresh_index enc_ok db_empty "u1" s_stale).2 =
      .ok ({ index := some [[1]], docs := [doc_rice] }, s_stale) ∧
    [doc_rice] ≠ ([] : List Doc) := by
  refine ⟨rfl, rfl, rfl, by decide⟩

/-- C4 (amended): refresh rebuilds from the data source regardless of
the cache or disk state; when the rebuilt document set is non-empty it
replaces both the cached and the durable copy with the new index and
reports the new document count, and a subsequent read observes the new
copy.  (When the record set is empty nothing is stored and the
previous copies remain observable, as the C4 counterexample shows,
though the reported count is still the new, zero, count.) -/
theorem refresh_nonempty_replaces (encode : Encoder) (db : MongoDBSrc) (user_id : String)
    (s : IMState) (vs : List Vec)
    (hdocs : format_inventory_docs
      (get_user_inventory db user_id ++ get_user_bills db user_id) ≠ [])
    (henc : encode ((format_inventory_docs
        (get_user_inventory db user_id ++ get_user_bills db user_id)).map
          (fun d => d.text)) = .ok vs) :
    (refresh_index encode db user_id s).1 =
      { status := "success", message := "Index refreshed successfully",
        document_count := (format_inventory_docs
          (get_user_inventory db user_id ++ get_user_bills db user_id)).length } ∧
    (refresh_index encode db user_id s).2.memory.lookup user_id =
      some (vs, format_inventory_docs
        (get_user_inventory db user_id ++ get_user_bills db user_id)) ∧
    (refresh_index encode db user_id s).2.disk.lookup user_id =
      some (vs, format_inventory_docs
        (get_user_inventory db user_id ++ get_user_bills db user_id)) ∧
    get_or_create_index encode db user_id false (refresh_index encode db user_id s).2 =
      .ok ({ index := some vs,
             docs := format_inventory_docs
               (get_user_inventory db user_id ++ get_user_bills db user_id) },
           (refresh_index encode db user_id s).2) := by
  have hforce : get_or_create_index encode db user_id true s =
      .ok ({ index := some vs,
             docs := format_inventory_docs
               (get_user_inventory db user_id ++ get_user_bills db user_id) },
           { s with
             disk := (user_id, (vs, format_inventory_docs
               (get_user_inventory db user_id ++ get_user_bills db user_id))) :: s.disk,
             memory := (user_id, (vs, format_inventory_docs
               (get_user_inventory db user_id ++ get_user_bills db user_id))) :: s.memory }) := by
    simp [get_or_create_index, hdocs, henc]
  have hrefresh2 : (refresh_index encode db user_id s).2 =
      { s with
        disk := (user_id, (vs, format_inventory_docs
          (get_user_inventory db user_id ++ get_user_bills db user_id))) :: s.disk,
        memory := (user_id, (vs, format_inventory_docs
          (get_user_inventory db user_id ++ get_user_bills db user_id))) :: s.memory } := by
    simp [refresh_index, hforce]
  refine ⟨?_, ?_, ?_, ?_⟩
  · simp [refresh_index, hforce]
  · simp [refresh_index, hforce, List.lookup]
  · simp [refresh_index, hforce, List.lookup]
  · rw [hrefresh2]
    simp [get_or_create_index, List.lookup]

/-- Witness for C4 (amended): one record, constant encoder, starting
from the stale state. -/
theorem refresh_nonempty_replaces_witness :
    (refresh_index enc_ok db_one "u1" s_stale).1 =
      { status := "success", message := "Index refreshed successfully",
        document_count := (format_inventory_docs
          (get_user_inventory db_one "u1" ++ get_user_bills db_one "u1")).length } ∧
    (refresh_index enc_ok db_one "u1" s_stale).2.memory.lookup "u1" =
      some ([[0]], format_inventory_docs
        (get_user_inventory db_one "u1" ++ get_user_bills db_one "u1")) ∧
    (refresh_index enc_ok db_one "u1" s_stale).2.disk.lookup "u1" =
      some ([[0]], format_inventory_docs
        (get_user_inventory db_one "u1" ++ get_user_bills db_one "u1")) ∧
    get_or_create_index enc_ok db_one "u1" false (refresh_index enc_ok db_one "u1" s_stale).2 =
      .ok ({ index := some [[0]],
             docs := format_inventory_docs
               (get_user_inventory db_one "u1" ++ get_user_bills db_one "u1") },
           (refresh_index enc_ok db_one "u1" s_stale).2) :=
  refresh_nonempty_replaces enc_ok db_one "u1" s_stale [[0]] (by decide) rfl

/-- C5: parse_recipe_list first tries the bracketed-span JSON decode
and returns the decoded list when it yields one; in every other case
it returns exactly the marker-stripped non-blank lines in their
original order; it is total, and the two stated examples hold. -/
theorem parse_recipe_list_spec :
    (∀ response : String,
      (∃ sub l, find_json_array response.data = some sub ∧
        json_loads (String.mk sub) = some (Json.arr l) ∧
        parse_recipe_list response = l) ∨
      parse_recipe_list response =
        (((split_nl response.data).map clean_line).filter (fun l => l ≠ "")).map Json.str) ∧
    parse_recipe_list "[\"A\",\"B\"]" = [Json.str "A", Json.str "B"] ∧
    parse_recipe_list "1. A\n2. B" = [Json.str "A", Json.str "B"] := by
  refine ⟨?_, rfl, rfl⟩
  intro response
  cases hfa : find_json_array response.data with
  | none =>
    right
    simp [parse_recipe_list, hfa]
  | some sub =>
    cases hjl : json_loads (String.mk sub) with
    | none =>
      right
      simp [parse_recipe_list, hfa, hjl]
    | some v =>
      cases v with
      | arr l =>
        left
        exact ⟨sub, l, rfl, hjl, by simp [parse_recipe_list, hfa, hjl]⟩
      | null => right; simp [parse_recipe_list, hfa, hjl]
      | bool b => right; simp [parse_recipe_list, hfa, hjl]
      | num n => right; simp [parse_recipe_list, hfa, hjl]
      | str s2 => right; simp [parse_recipe_list, hfa, hjl]
      | obj fs => right; simp [parse_recipe_list, hfa, hjl]

/-- Case analysis of the suggestions-object fallback. -/
theorem sugg_second_cases (cs : List Char) :
    (∃ sub fields v, find_sugg_obj cs = some sub ∧
      json_loads (String.mk sub) = some (Json.obj fields) ∧
      fields.reverse.lookup "suggestions" = some v ∧
      sugg_second cs = v) ∨
    (∃ sub, find_sugg_obj cs = some sub ∧
      json_loads (String.mk sub) = none ∧
      sugg_second cs = parse_failure_marker) ∨
    sugg_second cs = extract_failure_marker := by
  cases hfs : find_sugg_obj cs with
  | none =>
    right; right
    simp [sugg_second, hfs, sugg_second.sugg_second_missing]
  | some sub =>
    cases hjl : json_loads (String.mk sub) with
    | none =>
      right; left
      exact ⟨sub, rfl, hjl, by simp [sugg_second, hfs, hjl]⟩
    | some v =>
      cases v with
      | obj fields =>
        cases hlk : fields.reverse.lookup "suggestions" with
        | none => right; right; simp [sugg_second, hfs, hjl, hlk]
        | some w =>
          left
          exact ⟨sub, fields, w, rfl, hjl, hlk, by simp [sugg_second, hfs, hjl, hlk]⟩
      | null => right; right; simp [sugg_second, hfs, hjl]
      | bool b => right; right; simp [sugg_second, hfs, hjl]
      | num n => right; right; simp [sugg_second, hfs, hjl]
      | str s2 => right; right; simp [sugg_second, hfs, hjl]
      | arr l => right; right; simp [sugg_second, hfs, hjl]

/-- C6 counterexample: this text contains both a decodable JSON array
of objects and a decodable suggestions object (exhibited by the two
splittings), yet parse_structured_suggestions returns the one-record
parse-failure marker: the greedy array-of-objects candidate spans the
malformed prefix, and its decode failure short-circuits to the error
record without the suggestions object ever being tried. -/
theorem parse_structured_counterexample :
    "[\x7bx\x7d] \x7b\"suggestions\":[\x7b\"k\":1\x7d]\x7d" =
      "[\x7bx\x7d] \x7b\"suggestions\":" ++ "[\x7b\"k\":1\x7d]" ++ "\x7d" ∧
    json_loads "[\x7b\"k\":1\x7d]" = some (Json.arr [Json.obj [("k", Json.num 1)]]) ∧
    "[\x7bx\x7d] \x7b\"suggestions\":[\x7b\"k\":1\x7d]\x7d" =
      "[\x7bx\x7d] " ++ "\x7b\"suggestions\":[\x7b\"k\":1\x7d]\x7d" ++ "" ∧
    json_loads "\x7b\"suggestions\":[\x7b\"k\":1\x7d]\x7d" =
      some (Json.obj [("suggestions", Json.arr [Json.obj [("k", Json.num 1)]])]) ∧
    parse_structured_suggestions "[\x7bx\x7d] \x7b\"suggestions\":[\x7b\"k\":1\x7d]\x7d" =
      Json.arr [Json.obj [("error",
        Json.str "Failed to parse suggestions from LLM response")]] :=
  ⟨rfl, rfl, rfl, rfl, rfl⟩

/-- C6 (amended): parse_structured_suggestions returns the decoded
list when the greedy array-of-objects pattern locates a decodable
candidate; a located but malformed candidate returns the one-record
parse-failure marker at once, without trying the suggestions-object
pattern; only when no array-of-objects candidate is located (or it
decodes to a non-list) is the suggestions object tried, whose located
value is extracted, whose malformed candidate gives the same
parse-failure marker, and whose absence gives the one-record
extract-failure marker; it never raises. -/
theorem parse_structured_amended (response : String) :
    (∃ sub l, find_obj_array response.data = some sub ∧
      json_loads (String.mk sub) = some (Json.arr l) ∧
      parse_structured_suggestions response = Json.arr l) ∨
    (∃ sub, find_obj_array response.data = some sub ∧
      json_loads (String.mk sub) = none ∧
      parse_structured_suggestions response = parse_failure_marker) ∨
    (∃ sub fields v, find_sugg_obj response.data = some sub ∧
      json_loads (String.mk sub) = some (Json.obj fields) ∧
      fields.reverse.lookup "suggestions" = some v ∧
      parse_structured_suggestions response = v) ∨
    (∃ sub, find_sugg_obj response.data = some sub ∧
      json_loads (String.mk sub) = none ∧
      parse_structured_suggestions response = parse_failure_marker) ∨
    parse_structured_suggestions response = extract_failure_marker := by
  have hlift : ∀ h : parse_structured_suggestions response = sugg_second response.data,
      (∃ sub fields v, find_sugg_obj response.data = some sub ∧
        json_loads (String.mk sub) = some (Json.obj fields) ∧
        fields.reverse.lookup "suggestions" = some v ∧
        parse_structured_suggestions response = v) ∨
      (∃ sub, find_sugg_obj response.data = some sub ∧
        json_loads (String.mk sub) = none ∧
        parse_structured_suggestions response = parse_failure_marker) ∨
      parse_structured_suggestions response = extract_failure_marker := by
    intro h
    rcases sugg_second_cases response.data with
      ⟨sub, fields, v, h1, h2, h3, h4⟩ | ⟨sub, h1, h2, h3⟩ | h1
    · exact Or.inl ⟨sub, fields, v, h1, h2, h3, h ▸ h4⟩
    · exact Or.inr (Or.inl ⟨sub, h1, h2, h ▸ h3⟩)
    · exact Or.inr (Or.inr (h ▸ h1))
  cases hfa : find_obj_array response.data with
  | none =>
    have h : parse_structured_suggestions response = sugg_second response.data := by
      simp [parse_structured_suggestions, hfa]
    rcases hlift h with h1 | h1 | h1
    · exact Or.inr (Or.inr (Or.inl h1))
    · exact Or.inr (Or.inr (Or.inr (Or.inl h1)))
    · exact Or.inr (Or.inr (Or.inr (Or.inr h1)))
  | some sub =>
    cases hjl : json_loads (String.mk sub) with
    | none =>
      exact Or.inr (Or.inl ⟨sub, rfl, hjl,
        by simp [parse_structured_suggestions, hfa, hjl]⟩)
    | some v =>
      cases v with
      | arr l =>
        exact Or.inl ⟨sub, l, rfl, hjl,
          by simp [parse_structured_suggestions, hfa, hjl]⟩
      | null =>
        have h : parse_structured_suggestions response = sugg_second response.data := by
          simp [parse_structured_suggestions, hfa, hjl]
        rcases hlift h with h1 | h1 | h1
        · exact Or.inr (Or.inr (Or.inl h1))
        · exact Or.inr (Or.inr (Or.inr (Or.inl h1)))
        · exact Or.inr (Or.inr (Or.inr (Or.inr h1)))
      | bool b =>
        have h : parse_structured_suggestions response = sugg_second response.data := by
          simp [parse_structured_suggestions, hfa, hjl]
        rcases hlift h with h1 | h1 | h1
        · exact Or.inr (Or.inr (Or.inl h1))
        · exact Or.inr (Or.inr (Or.inr (Or.inl h1)))
        · exact Or.inr (Or.inr (Or.inr (Or.inr h1)))
      | num n =>
        have h : parse_structured_suggestions response = sugg_second response.data := by
          simp [parse_structured_suggestions, hfa, hjl]
        rcases hlift h with h1 | h1 | h1
        · exact Or.inr (Or.inr (Or.inl h1))
        · exact Or.inr (Or.inr (Or.inr (Or.inl h1)))
        · exact Or.inr (Or.inr (Or.inr (Or.inr h1)))
      | str s2 =>
        have h : parse_structured_suggestions response = sugg_second response.data := by
          simp [parse_structured_suggestions, hfa, hjl]
        rcases hlift h with h1 | h1 | h1
        · exact Or.inr (Or.inr (Or.inl h1))
        · exact Or.inr (Or.inr (Or.inr (Or.inl h1)))
        · exact Or.inr (Or.inr (Or.inr (Or.inr h1)))
      | obj fs =>
        have h : parse_structured_suggestions response = sugg_second response.data := by
          simp [parse_structured_suggestions, hfa, hjl]
        rcases hlift h with h1 | h1 | h1
        · exact Or.inr (Or.inr (Or.inl h1))
        · exact Or.inr (Or.inr (Or.inr (Or.inl h1)))
        · exact Or.inr (Or.inr (Or.inr (Or.inr h1)))

/-- C8: with both required fields present the list and structured
endpoints always answer 200 with the normal payload shape — a
pipeline failure is embedded as data (the stated message for the list
endpoint, a one-record error object for the structured one) — while a
missing body or missing field is rejected with the 400 client error
for every pipeline, i.e. before any pipeline work. -/
theorem endpoints_never_hard_fail (run : String → String → Except String (List Json))
    (runS : String → String → Except String Json) (q u e : String) :
    (∃ l, item_rag_endpoint run (some { query := some q, userid := some u }) =
      (Json.obj [("answer", Json.arr l)], 200)) ∧
    (∃ v, structured_recipe_endpoint runS (some { query := some q, userid := some u }) =
      (Json.obj [("suggestions", v)], 200)) ∧
    item_rag_endpoint (fun _ _ => .error e) (some { query := some q, userid := some u }) =
      (Json.obj [("answer", Json.arr [Json.str ("Error generating recipes: " ++ e)])], 200) ∧
    structured_recipe_endpoint (fun _ _ => .error e) (some { query := some q, userid := some u }) =
      (Json.obj [("suggestions", Json.arr [Json.obj [("error", Json.str e)]])], 200) ∧
    item_rag_endpoint run none = missing_params_resp ∧
    item_rag_endpoint run (some { query := none, userid := some u }) = missing_params_resp ∧
    item_rag_endpoint run (some { query := some q, userid := none }) = missing_params_resp ∧
    structured_recipe_endpoint runS none = missing_params_resp ∧
    structured_recipe_endpoint runS (some { query := none, userid := some u }) = missing_params_resp ∧
    structured_recipe_endpoint runS (some { query := some q, userid := none }) = missing_params_resp ∧
    missing_params_resp.2 = 400 := by
  refine ⟨?_, ?_, rfl, rfl, rfl, rfl, rfl, rfl, rfl, rfl, rfl⟩
  · cases hr : run q u with
    | ok l => exact ⟨l, by simp [item_rag_endpoint, hr]⟩
    | error e2 =>
      exact ⟨[Json.str ("Error generating recipes: " ++ e2)],
        by simp [item_rag_endpoint, hr]⟩
  · cases hr : runS q u with
    | ok v => exact ⟨v, by simp [structured_recipe_endpoint, hr]⟩
    | error e2 =>
      exact ⟨Json.arr [Json.obj [("error", Json.str e2)]],
        by simp [structured_recipe_endpoint, hr]⟩
